import Mathlib

/-!
Verification of the group-movement behaviour of `src/lib/movement.hpp`
(FCPP monitoring exercises).

Numeric values are embedded as rationals extended with an explicit
not-a-number element (`RVal`), mirroring IEEE semantics where they matter:
any comparison involving NaN is false, and arithmetic absorbs NaN.

The spatial oracle (`path_to`, `closest_space`, `closest_obstacle`), the
movement primitive `follow_target`, the round-persisted slots (`old`), and
the sticky `constant` slot are external collaborators of the repository
(the FCPP library, not under `src/`); they are modelled from the spec as
records of functions and explicit slot-passing, marked `Modelled from the
spec:` below.
-/

namespace FcppMovement

/-- A real value of the simulation: a rational or the IEEE not-a-number. -/
inductive RVal where
  | nan : RVal
  | fin : ℚ → RVal
deriving DecidableEq, Repr

namespace RVal

/-- IEEE `isnan` test on a value. -/
def isnan : RVal → Bool
  | .nan => true
  | .fin _ => false

/-- Addition, absorbing NaN as IEEE does. -/
def add : RVal → RVal → RVal
  | .fin a, .fin b => .fin (a + b)
  | _, _ => .nan

instance : Add RVal := ⟨RVal.add⟩

/-- Subtraction, absorbing NaN. -/
def sub : RVal → RVal → RVal
  | .fin a, .fin b => .fin (a - b)
  | _, _ => .nan

/-- Multiplication, absorbing NaN (the code never multiplies NaN by zero). -/
def mul : RVal → RVal → RVal
  | .fin a, .fin b => .fin (a * b)
  | _, _ => .nan

/-- Strict order: false whenever either side is NaN, as in IEEE. -/
def lt : RVal → RVal → Bool
  | .fin a, .fin b => decide (a < b)
  | _, _ => false

end RVal

/-- A two-dimensional vector of simulation values (`vec<2>` in the code). -/
def Vec2 := RVal × RVal
deriving DecidableEq, Repr

instance : Add Vec2 := ⟨fun a b => (a.1 + b.1, a.2 + b.2)⟩

/-- Linear interpolation on one coordinate: `p + t * (w - p)`, NaN-absorbing. -/
def lerpR (p w : RVal) (t : ℚ) : RVal := p + (RVal.fin t).mul (w.sub p)

/-- Linear interpolation between two points: the point of parameter `t` on
the segment from `p` to `w`. -/
def lerpV (p w : Vec2) (t : ℚ) : Vec2 := (lerpR p.1 w.1 t, lerpR p.2 w.2 t)

/-- Modelled from the spec: the external spatial oracle (`node.net` in the
code), providing nearest-walkable-point, nearest-obstacle and
next-waypoint-on-shortest-path queries; `path_to` may return NaN coordinates
when no valid path exists (a signaled failure, not a crash). -/
structure Net where
  path_to : Vec2 → Vec2 → Vec2
  closest_space : Vec2 → Vec2
  closest_obstacle : Vec2 → Vec2

/-- Modelled from the spec: the external movement primitive `follow_target`.
Given the current position, a waypoint, a velocity cap and a period it
produces the new position together with the returned distance; the exact
step mechanism is delegated to it by the spec, so it is a parameter here. -/
structure FollowPrim where
  step : Vec2 → Vec2 → RVal → RVal → Vec2 × RVal

/-- Modelled from the spec: soundness of a movement primitive — it only ever
advances the device toward the given waypoint, i.e. the new position lies on
the segment from the current position to the waypoint. -/
def FollowPrim.Sound (prim : FollowPrim) : Prop :=
  ∀ pos w maxv per, ∃ t : ℚ,
    0 ≤ t ∧ t ≤ 1 ∧ (prim.step pos w maxv per).1 = lerpV pos w t

/-- The world-rectangle upper bound on the x axis (`hi_x` in the code). -/
def hi_x : ℚ := 1200

/-- The world-rectangle upper bound on the y axis (`hi_y` in the code). -/
def hi_y : ℚ := 800

/-- The group capacity (`max_group_size` in the code). -/
def max_group_size : ℕ := 100

/-- The waypoint computed by `reach_on_streets`: the oracle's next waypoint
on the path to the walkable point closest to `target`, replaced by the
current position when it is degenerate (NaN in either coordinate) or when
`target` lies outside the world rectangle. Translated from
`src/lib/movement.hpp`, lines 37-44. -/
def reach_waypoint (net : Net) (pos target : Vec2) : Vec2 :=
  let t := net.path_to pos (net.closest_space target)
  let t := if t.1.isnan || t.2.isnan then pos else t
  let t := if target.1.lt (RVal.fin 0) || target.2.lt (RVal.fin 0) ||
              (RVal.fin hi_x).lt target.1 || (RVal.fin hi_y).lt target.2
           then pos else t
  t

/-- `reach_on_streets`: computes the waypoint as above and hands it to the
movement primitive with the velocity cap and the period, returning the new
position and the advanced distance. Translated from `src/lib/movement.hpp`,
lines 36-45 (the debug-string side effect is observational only and
omitted). -/
def reach_on_streets (net : Net) (prim : FollowPrim) (pos target : Vec2)
    (max_v per : RVal) : Vec2 × RVal :=
  prim.step pos (reach_waypoint net pos target) max_v per

/-- The leader identifier derived from a device identifier:
`uid - (uid % max_group_size)`, from `src/lib/movement.hpp`, line 55. -/
def leader_of (uid : ℕ) : ℕ := uid - uid % max_group_size

/-- Modelled from the spec: the round-persisted slot primitive
`old(CALL, f0, v)` of the external runtime — it returns the previous round's
persisted value (defaulting to `f0` on the first round) and persists `v`.
The slot is `none` before the device's first round. -/
def old_put {α : Type} (slot : Option α) (f0 v : α) : α × Option α :=
  (slot.getD f0, some v)

/-- Modelled from the spec: the updating form `old(CALL, f0, op)` of the
round-persisted slot primitive — it applies `op` to the previous round's
persisted value (defaulting to `f0` on the first round), persists the result
and returns it. -/
def old_upd {α : Type} (slot : Option α) (f0 : α) (op : α → α) : α × Option α :=
  let r := op (slot.getD f0)
  (r, some r)

/-- Modelled from the spec: the sticky-on-first-evaluation slot primitive
`constant(CALL, v)` — on the first evaluation it persists and returns `v`;
on every later evaluation it returns the persisted value unchanged. -/
def constant_step {α : Type} (slot : Option α) (v : α) : α × Option α :=
  let r := slot.getD v
  (r, some r)

/-- The persisted state of one device across rounds: the `old` slot backing
`first_round`, the leader's `old` slot backing the current target, and the
follower's `constant` slot backing the personal offset. Each slot is `none`
before its first evaluation. -/
structure GWState where
  first_slot : Option Bool
  target_slot : Option Vec2
  const_slot : Option Vec2
deriving DecidableEq, Repr

/-- The device state before the very first round: all slots empty. -/
def GWState.init : GWState := ⟨none, none, none⟩

/-- The external inputs consumed by one round of `group_walk`: the spatial
oracle, the movement primitive, the value returned by this round's
`random_rectangle_target` call, and the leader's position as reported by
`node.net.node_at(leader).position()`. -/
structure RoundIn where
  net : Net
  prim : FollowPrim
  sample : Vec2
  leader_pos : Vec2

/-- The observable outcome of one round of `group_walk`: the device position
after the round, the persisted state, the target handed to
`reach_on_streets` (when invoked), the distance it returned, the value of
the follower's `constant` slot (when evaluated), and the value read for
`first_round`. -/
structure RoundOut where
  pos : Vec2
  state : GWState
  moved_toward : Option Vec2
  reach_dist : Option RVal
  offset : Option Vec2
  fr : Bool
deriving DecidableEq, Repr

/-- The period used by `group_walk` (`times_t period = 1`,
`src/lib/movement.hpp`, line 54). -/
def group_walk_period : RVal := RVal.fin 1

/-- One round of `group_walk` for the device `uid` with stored speed
`max_v`, at position `pos` with persisted state `st`. Translated from
`src/lib/movement.hpp`, lines 52-77: read `first_round` via
`old(CALL, true, false)`; a leader snaps to the closest walkable point on
its first round, then runs `old(CALL, target, fn)` where `fn` moves toward
the held target via `reach_on_streets` and keeps it when the advanced
distance exceeds `max_v * period`, otherwise adopts the fresh sample; a
follower evaluates its sticky offset, adds the leader position, teleports to
the closest walkable point on its first round and otherwise moves via
`reach_on_streets`. -/
def group_walk (uid : ℕ) (max_v : RVal) (inp : RoundIn) (pos : Vec2)
    (st : GWState) : RoundOut :=
  let fr_pair := old_put st.first_slot true false
  let first_round := fr_pair.1
  if uid = leader_of uid then
    let pos := if first_round then inp.net.closest_space pos else pos
    let target := inp.sample
    let t := st.target_slot.getD target
    let mv := reach_on_streets inp.net inp.prim pos t max_v group_walk_period
    let dist := mv.2
    let newt := if (max_v.mul group_walk_period).lt dist then t else target
    { pos := mv.1,
      state := { first_slot := fr_pair.2, target_slot := some newt,
                 const_slot := st.const_slot },
      moved_toward := some t, reach_dist := some dist,
      offset := none, fr := first_round }
  else
    let cs := constant_step st.const_slot inp.sample
    let t := cs.1 + inp.leader_pos
    if first_round then
      { pos := inp.net.closest_space t,
        state := { first_slot := fr_pair.2, target_slot := st.target_slot,
                   const_slot := cs.2 },
        moved_toward := none, reach_dist := none,
        offset := some cs.1, fr := first_round }
    else
      let mv := reach_on_streets inp.net inp.prim pos t max_v group_walk_period
      { pos := mv.1,
        state := { first_slot := fr_pair.2, target_slot := st.target_slot,
                   const_slot := cs.2 },
        moved_toward := some t, reach_dist := some mv.2,
        offset := some cs.1, fr := first_round }

/-- Iterated rounds of `group_walk`: runs the device through the list of
per-round inputs, threading position and persisted state, and collects the
outcome of every round. -/
def group_walk_run (uid : ℕ) (max_v : RVal) :
    Vec2 → GWState → List RoundIn → List RoundOut
  | _, _, [] => []
  | pos, st, inp :: rest =>
    let out := group_walk uid max_v inp pos st
    out :: group_walk_run uid max_v out.pos out.state rest

/-- Modelled from the spec: the accumulating distribution functor
`functor::acc` applied to the constant distribution of value `stp` — its
`k`-th draw (1-based) is the running sum of `k` samples, `stp * k`. -/
def acc_constant (stp : ℤ) (k : ℕ) : ℤ := stp * k

/-- The `arithmetic_sequence` option of `src/lib/movement.hpp`, lines
97-101: `functor::add` of the accumulator over the constant step and the
constant `start - step`, so the `k`-th drawn value (1-based) is
`start + (k-1) * step`. Identifier arithmetic is modelled in `ℤ` (the spec
treats identifiers as integers; machine-width wraparound never occurs for
the configurations admitted by `spawn_group`). -/
def arithmetic_sequence (start stp : ℤ) (k : ℕ) : ℤ :=
  acc_constant stp k + (start - stp)

/-- The device identifiers generated by a `spawn_group` configuration with
group id `g` and group size `s`: `s` spawn events, each drawing the next
value of `arithmetic_sequence` with start `max_group_size * g` and step 1
(`src/lib/movement.hpp`, lines 115-127). -/
def spawn_group_uids (g s : ℕ) : List ℤ :=
  (List.range s).map (fun i => arithmetic_sequence (max_group_size * g) 1 (i + 1))

/-- A trivial spatial oracle for concrete evaluations: the world is fully
walkable and the path query heads straight to its destination. -/
def triv_net : Net :=
  { path_to := fun _ dest => dest, closest_space := id, closest_obstacle := id }

/-- An oracle whose path query always fails with a NaN waypoint. -/
def nan_net : Net :=
  { path_to := fun _ _ => (RVal.nan, RVal.nan), closest_space := id,
    closest_obstacle := id }

/-- A concrete movement primitive that jumps to the waypoint (the point of
parameter 1 on the segment) and reports advanced distance 0. -/
def glide_prim : FollowPrim :=
  { step := fun pos w _ _ => (lerpV pos w 1, RVal.fin 0) }

/-- First-round input for the concrete leader run: fresh sample `(0, 0)`. -/
def c1_in1 : RoundIn :=
  { net := triv_net, prim := glide_prim,
    sample := (RVal.fin 0, RVal.fin 0),
    leader_pos := (RVal.fin 0, RVal.fin 0) }

/-- Second-round input for the concrete leader run: fresh sample
`(100, 100)`. -/
def c1_in2 : RoundIn :=
  { net := triv_net, prim := glide_prim,
    sample := (RVal.fin 100, RVal.fin 100),
    leader_pos := (RVal.fin 0, RVal.fin 0) }

/-- Round input for the concrete follower run: fresh offset sample (0, 0)
with the leader at (3, 4). -/
def c6_in : RoundIn :=
  { net := triv_net, prim := glide_prim,
    sample := (RVal.fin 0, RVal.fin 0),
    leader_pos := (RVal.fin 3, RVal.fin 4) }

/-!
Theorems. General lemmas about the embedding come first, then one theorem
per verified property (with a closed witness or counterexample instance
where appropriate).
-/

theorem rval_add_comm (a b : RVal) : a + b = b + a := by
  cases a <;> cases b <;> simp [HAdd.hAdd, Add.add, RVal.add]
  exact Rat.add_comm _ _

theorem RVal.mul_one_fin (a : RVal) : a.mul (RVal.fin 1) = a := by
  cases a <;> simp [RVal.mul]

theorem vec2_add_comm (a b : Vec2) : a + b = b + a := by
  show (a.1 + b.1, a.2 + b.2) = (b.1 + a.1, b.2 + a.2)
  rw [rval_add_comm a.1 b.1, rval_add_comm a.2 b.2]

theorem lerpR_self (p : RVal) (t : ℚ) : lerpR p p t = p := by
  cases p <;> simp [lerpR, RVal.sub, RVal.mul, HAdd.hAdd, Add.add, RVal.add]
  exact Rat.add_zero _

theorem lerpV_self (p : Vec2) (t : ℚ) : lerpV p p t = p := by
  show (lerpR p.1 p.1 t, lerpR p.2 p.2 t) = p
  rw [lerpR_self, lerpR_self]
  rfl

theorem glide_prim_sound : glide_prim.Sound := by
  intro pos w maxv per
  exact ⟨1, by norm_num, le_refl 1, rfl⟩

theorem group_walk_fr (uid : ℕ) (max_v : RVal) (inp : RoundIn) (pos : Vec2)
    (st : GWState) :
    (group_walk uid max_v inp pos st).fr = st.first_slot.getD true := by
  unfold group_walk
  by_cases h : uid = leader_of uid
  · rw [if_pos h]
    rfl
  · rw [if_neg h]
    by_cases h2 : (old_put st.first_slot true false).1 = true
    · rw [if_pos h2]
      rfl
    · rw [if_neg h2]
      rfl

theorem group_walk_first_slot (uid : ℕ) (max_v : RVal) (inp : RoundIn)
    (pos : Vec2) (st : GWState) :
    (group_walk uid max_v inp pos st).state.first_slot = some false := by
  unfold group_walk
  by_cases h : uid = leader_of uid
  · rw [if_pos h]
    rfl
  · rw [if_neg h]
    by_cases h2 : (old_put st.first_slot true false).1 = true
    · rw [if_pos h2]
      rfl
    · rw [if_neg h2]
      rfl

theorem group_walk_run_fr_false (uid : ℕ) (max_v : RVal)
    (inps : List RoundIn) :
    ∀ (pos : Vec2) (st : GWState), st.first_slot = some false →
      ∀ o ∈ group_walk_run uid max_v pos st inps, o.fr = false := by
  induction inps with
  | nil =>
    intro pos st _ o ho
    simp [group_walk_run] at ho
  | cons inp rest ih =>
    intro pos st h o ho
    simp only [group_walk_run] at ho
    rcases List.mem_cons.mp ho with rfl | hmem
    · rw [group_walk_fr, h]
      rfl
    · exact ih _ _ (group_walk_first_slot uid max_v inp pos st) o hmem

theorem group_walk_follower_obs (uid : ℕ) (max_v : RVal) (inp : RoundIn)
    (pos : Vec2) (st : GWState) (hf : ¬ uid = leader_of uid) :
    (group_walk uid max_v inp pos st).state.const_slot
      = some (st.const_slot.getD inp.sample) ∧
    (group_walk uid max_v inp pos st).offset
      = some (st.const_slot.getD inp.sample) := by
  unfold group_walk
  rw [if_neg hf]
  by_cases h2 : (old_put st.first_slot true false).1 = true
  · rw [if_pos h2]
    exact ⟨rfl, rfl⟩
  · rw [if_neg h2]
    exact ⟨rfl, rfl⟩

theorem group_walk_run_offset (uid : ℕ) (max_v : RVal) (c : Vec2)
    (hf : ¬ uid = leader_of uid) (inps : List RoundIn) :
    ∀ (pos : Vec2) (st : GWState), st.const_slot = some c →
      ∀ o ∈ group_walk_run uid max_v pos st inps, o.offset = some c := by
  induction inps with
  | nil =>
    intro pos st _ o ho
    simp [group_walk_run] at ho
  | cons inp rest ih =>
    intro pos st h o ho
    simp only [group_walk_run] at ho
    rcases List.mem_cons.mp ho with rfl | hmem
    · rw [(group_walk_follower_obs uid max_v inp pos st hf).2, h,
        Option.getD_some]
    · refine ih _ _ ?_ o hmem
      rw [(group_walk_follower_obs uid max_v inp pos st hf).1, h,
        Option.getD_some]

/-- C7 counterexample: with group capacity 100, device 250 maps to leader
identifier 200, not 250 — so 250 is not its own leader and the claim's
concrete example is false. -/
theorem C7_counterexample :
    leader_of 250 = 200 ∧ leader_of 251 = 200 ∧ ¬ leader_of 250 = 250 := by
  decide

/-- C7 (amended): the map `uid ↦ uid - uid % max_group_size` is idempotent
and satisfies `0 ≤ uid - leader_of uid < max_group_size`; with group
capacity 100, identifiers 250 and 251 both map to leader identifier 200,
and device 200 (not 250) is its own leader. -/
theorem C7_leader_map (uid : ℕ) :
    leader_of (leader_of uid) = leader_of uid ∧
    leader_of uid ≤ uid ∧
    uid - leader_of uid < max_group_size ∧
    leader_of 250 = 200 ∧ leader_of 251 = 200 ∧ leader_of 200 = 200 := by
  unfold leader_of max_group_size
  omega

/-- C4: whenever the first waypoint returned by the oracle's path query has
NaN in either coordinate, `reach_on_streets` replaces it by the device's
current position, and any sound movement primitive then leaves the device
exactly where it is; the round completes normally (the function is total
and returns a value). -/
theorem C4_nan_path_no_move (net : Net) (prim : FollowPrim)
    (hs : prim.Sound) (pos target : Vec2) (max_v per : RVal)
    (h : ((net.path_to pos (net.closest_space target)).1.isnan ||
          (net.path_to pos (net.closest_space target)).2.isnan) = true) :
    reach_waypoint net pos target = pos ∧
    (reach_on_streets net prim pos target max_v per).1 = pos := by
  have hw : reach_waypoint net pos target = pos := by
    simp [reach_waypoint, h]
  refine ⟨hw, ?_⟩
  obtain ⟨t, _, _, hstep⟩ := hs pos (reach_waypoint net pos target) max_v per
  rw [reach_on_streets, hstep, hw, lerpV_self]

/-- C4 witness: a concrete NaN-path oracle at position (5, 5) and target
(7, 7), with the concrete sound primitive, stays at (5, 5). -/
theorem C4_nan_path_no_move_witness :
    reach_waypoint nan_net (RVal.fin 5, RVal.fin 5) (RVal.fin 7, RVal.fin 7)
      = (RVal.fin 5, RVal.fin 5) ∧
    (reach_on_streets nan_net glide_prim (RVal.fin 5, RVal.fin 5)
      (RVal.fin 7, RVal.fin 7) (RVal.fin 1) (RVal.fin 1)).1
      = (RVal.fin 5, RVal.fin 5) :=
  C4_nan_path_no_move nan_net glide_prim glide_prim_sound
    (RVal.fin 5, RVal.fin 5) (RVal.fin 7, RVal.fin 7)
    (RVal.fin 1) (RVal.fin 1) (by decide)

/-- C5: whenever the target lies outside the world rectangle (a negative
coordinate, first coordinate above 1200, or second coordinate above 800),
`reach_on_streets` uses the device's current position as the waypoint —
regardless of what the oracle's path query returns — and any sound movement
primitive leaves the device at its current position. -/
theorem C5_out_of_bounds_no_move (net : Net) (prim : FollowPrim)
    (hs : prim.Sound) (pos : Vec2) (x y : ℚ) (max_v per : RVal)
    (h : x < 0 ∨ y < 0 ∨ hi_x < x ∨ hi_y < y) :
    reach_waypoint net pos (RVal.fin x, RVal.fin y) = pos ∧
    (reach_on_streets net prim pos (RVal.fin x, RVal.fin y) max_v per).1
      = pos := by
  have hb : ((RVal.fin x).lt (RVal.fin 0) || (RVal.fin y).lt (RVal.fin 0) ||
      (RVal.fin hi_x).lt (RVal.fin x) || (RVal.fin hi_y).lt (RVal.fin y))
      = true := by
    simp only [RVal.lt, Bool.or_eq_true, decide_eq_true_eq]
    tauto
  have hw : reach_waypoint net pos (RVal.fin x, RVal.fin y) = pos := by
    rw [reach_waypoint]
    simp only [hb, if_true]
  refine ⟨hw, ?_⟩
  obtain ⟨t, _, _, hstep⟩ :=
    hs pos (reach_waypoint net pos (RVal.fin x, RVal.fin y)) max_v per
  rw [reach_on_streets, hstep, hw, lerpV_self]

/-- C5 witness: target (1300, 400) lies outside the rectangle, and even
with a fully walkable oracle the device at (5, 5) does not move. -/
theorem C5_out_of_bounds_no_move_witness :
    reach_waypoint triv_net (RVal.fin 5, RVal.fin 5)
      (RVal.fin 1300, RVal.fin 400) = (RVal.fin 5, RVal.fin 5) ∧
    (reach_on_streets triv_net glide_prim (RVal.fin 5, RVal.fin 5)
      (RVal.fin 1300, RVal.fin 400) (RVal.fin 1) (RVal.fin 1)).1
      = (RVal.fin 5, RVal.fin 5) :=
  C5_out_of_bounds_no_move triv_net glide_prim glide_prim_sound
    (RVal.fin 5, RVal.fin 5) 1300 400 (RVal.fin 1) (RVal.fin 1)
    (by norm_num [hi_x])

/-- C1 counterexample: a concrete two-round leader run (device 0, speed 1,
trivial oracle). On round 2 the freshly sampled target (100, 100) is
adopted as the persisted currentTarget, yet `reach_on_streets` was invoked
toward (0, 0) — the previously held target — so the movement step of the
adoption round is not taken toward the newly adopted currentTarget. -/
theorem C1_counterexample :
    ((group_walk_run 0 (RVal.fin 1) (RVal.fin 0, RVal.fin 0) GWState.init
        [c1_in1, c1_in2]).map fun o => (o.moved_toward, o.state.target_slot))
      = [(some (RVal.fin 0, RVal.fin 0), some (RVal.fin 0, RVal.fin 0)),
         (some (RVal.fin 0, RVal.fin 0), some (RVal.fin 100, RVal.fin 100))] ∧
    ¬ (some (RVal.fin 0, RVal.fin 0) : Option Vec2)
        = some (RVal.fin 100, RVal.fin 100) := by
  constructor
  · norm_num [group_walk_run, group_walk, reach_on_streets, reach_waypoint,
      old_put, constant_step, triv_net, glide_prim, c1_in1, c1_in2, RVal.mul,
      RVal.lt, RVal.isnan, group_walk_period, GWState.init, leader_of,
      max_group_size, lerpV, lerpR, RVal.sub, RVal.add, hi_x, hi_y]
  · decide

/-- C1 (amended): on every leader round, `reach_on_streets` is invoked
toward the currentTarget held at the start of the round — the previously
persisted target, defaulting to this round's fresh sample on the very first
round; the replacement decision is made after this movement, so a target
freshly adopted on a later round is first moved toward only on the
following round. -/
theorem C1_leader_moves_toward_held (uid : ℕ) (max_v : RVal) (inp : RoundIn)
    (pos : Vec2) (st : GWState) (hl : uid = leader_of uid) :
    (group_walk uid max_v inp pos st).moved_toward =
      some (st.target_slot.getD inp.sample) := by
  unfold group_walk
  rw [if_pos hl]

/-- C1 witness: the amended statement at a concrete leader round. -/
theorem C1_leader_moves_toward_held_witness :
    (group_walk 0 (RVal.fin 1) c1_in2 (RVal.fin 0, RVal.fin 0)
        ⟨some false, some (RVal.fin 0, RVal.fin 0), none⟩).moved_toward
      = some (RVal.fin 0, RVal.fin 0) :=
  C1_leader_moves_toward_held 0 (RVal.fin 1) c1_in2
    (RVal.fin 0, RVal.fin 0)
    ⟨some false, some (RVal.fin 0, RVal.fin 0), none⟩ (by decide)

/-- C2: for a leader holding a persisted currentTarget, if the distance
advanced this round by `reach_on_streets` toward that target is strictly
greater than `max_v * period` then the persisted currentTarget for the next
round is unchanged; if it is at most `max_v * period`, the persisted
currentTarget is replaced by this round's freshly sampled target. -/
theorem C2_leader_retarget (uid : ℕ) (m d : ℚ) (inp : RoundIn)
    (pos tprev : Vec2) (st : GWState) (hl : uid = leader_of uid)
    (ht : st.target_slot = some tprev)
    (hd : (group_walk uid (RVal.fin m) inp pos st).reach_dist
            = some (RVal.fin d)) :
    (m < d →
      (group_walk uid (RVal.fin m) inp pos st).state.target_slot
        = some tprev) ∧
    (d ≤ m →
      (group_walk uid (RVal.fin m) inp pos st).state.target_slot
        = some inp.sample) := by
  unfold group_walk at hd ⊢
  rw [if_pos hl] at hd ⊢
  simp only [ht, Option.getD_some, Option.some.injEq] at hd ⊢
  rw [hd]
  constructor
  · intro hlt
    have hc : ((RVal.fin m).mul group_walk_period).lt (RVal.fin d) = true := by
      simp [group_walk_period, RVal.mul, RVal.lt, hlt]
    simp [hc]
  · intro hle
    have hc : ((RVal.fin m).mul group_walk_period).lt (RVal.fin d) = false := by
      simp only [group_walk_period, RVal.mul, RVal.lt, mul_one,
        decide_eq_false_iff_not, not_lt]
      exact hle
    simp [hc]

/-- C2 witness: at the concrete leader round of `c1_in2` (advanced distance
0, max speed 1), the persisted currentTarget becomes the fresh sample. -/
theorem C2_leader_retarget_witness :
    ((1:ℚ) < 0 →
      (group_walk 0 (RVal.fin 1) c1_in2 (RVal.fin 0, RVal.fin 0)
          ⟨some false, some (RVal.fin 0, RVal.fin 0), none⟩).state.target_slot
        = some (RVal.fin 0, RVal.fin 0)) ∧
    ((0:ℚ) ≤ 1 →
      (group_walk 0 (RVal.fin 1) c1_in2 (RVal.fin 0, RVal.fin 0)
          ⟨some false, some (RVal.fin 0, RVal.fin 0), none⟩).state.target_slot
        = some (RVal.fin 100, RVal.fin 100)) :=
  C2_leader_retarget 0 1 0 c1_in2 (RVal.fin 0, RVal.fin 0)
    (RVal.fin 0, RVal.fin 0)
    ⟨some false, some (RVal.fin 0, RVal.fin 0), none⟩
    (by decide) rfl (by decide)

/-- C10: `group_walk` fixes the period at 1, so the velocity cap
`max_v * period` handed to the movement primitive equals the stored max
speed, and the leader's reached-test threshold reduces to the plain max
speed: the next persisted target is the held one exactly when the advanced
distance exceeds `max_v` itself. -/
theorem C10_period_one (uid : ℕ) (m : ℚ) (inp : RoundIn) (pos tprev : Vec2)
    (st : GWState) (hl : uid = leader_of uid)
    (ht : st.target_slot = some tprev) :
    group_walk_period = RVal.fin 1 ∧
    (∀ v : RVal, v.mul group_walk_period = v) ∧
    ∃ d : RVal,
      (group_walk uid (RVal.fin m) inp pos st).reach_dist = some d ∧
      (group_walk uid (RVal.fin m) inp pos st).state.target_slot =
        some (if (RVal.fin m).lt d then tprev else inp.sample) := by
  refine ⟨rfl, fun v => RVal.mul_one_fin v, ?_⟩
  unfold group_walk
  rw [if_pos hl]
  simp only [ht, Option.getD_some, Option.some.injEq]
  refine ⟨_, rfl, ?_⟩
  have hmul : (RVal.fin m).mul group_walk_period = RVal.fin m :=
    RVal.mul_one_fin (RVal.fin m)
  rw [hmul]

/-- C10 witness: the period-1 consequences at a concrete leader round. -/
theorem C10_period_one_witness :
    group_walk_period = RVal.fin 1 ∧
    (∀ v : RVal, v.mul group_walk_period = v) ∧
    ∃ d : RVal,
      (group_walk 0 (RVal.fin 1) c1_in2 (RVal.fin 0, RVal.fin 0)
          ⟨some false, some (RVal.fin 0, RVal.fin 0), none⟩).reach_dist
        = some d ∧
      (group_walk 0 (RVal.fin 1) c1_in2 (RVal.fin 0, RVal.fin 0)
          ⟨some false, some (RVal.fin 0, RVal.fin 0), none⟩).state.target_slot
        = some (if (RVal.fin 1).lt d then (RVal.fin 0, RVal.fin 0)
                else (RVal.fin 100, RVal.fin 100)) :=
  C10_period_one 0 1 c1_in2 (RVal.fin 0, RVal.fin 0)
    (RVal.fin 0, RVal.fin 0)
    ⟨some false, some (RVal.fin 0, RVal.fin 0), none⟩
    (by decide) rfl

/-- C8: in any run from the initial state, the `first_round` value read by
the device is true on its first active round and false on every later
round — once false it never becomes true again. -/
theorem C8_first_round_flag (uid : ℕ) (max_v : RVal) (pos0 : Vec2)
    (inp0 : RoundIn) (rest : List RoundIn) :
    ∃ o0 tail,
      group_walk_run uid max_v pos0 GWState.init (inp0 :: rest)
        = o0 :: tail ∧
      o0.fr = true ∧ ∀ o ∈ tail, o.fr = false := by
  refine ⟨group_walk uid max_v inp0 pos0 GWState.init,
    group_walk_run uid max_v (group_walk uid max_v inp0 pos0 GWState.init).pos
      (group_walk uid max_v inp0 pos0 GWState.init).state rest, rfl, ?_, ?_⟩
  · rw [group_walk_fr]
    rfl
  · exact group_walk_run_fr_false uid max_v rest _ _
      (group_walk_first_slot uid max_v inp0 pos0 GWState.init)

/-- C3: for a follower device, the personal offset observed on every round
of any run from the initial state equals the value sampled on the first
round — the sticky `constant` slot is never re-sampled. -/
theorem C3_offset_sticky (uid : ℕ) (max_v : RVal) (pos0 : Vec2)
    (inp0 : RoundIn) (rest : List RoundIn) (hf : ¬ uid = leader_of uid) :
    ∀ o ∈ group_walk_run uid max_v pos0 GWState.init (inp0 :: rest),
      o.offset = some inp0.sample := by
  intro o ho
  simp only [group_walk_run] at ho
  rcases List.mem_cons.mp ho with rfl | hmem
  · exact (group_walk_follower_obs uid max_v inp0 pos0 GWState.init hf).2
  · exact group_walk_run_offset uid max_v inp0.sample hf rest _ _
      (group_walk_follower_obs uid max_v inp0 pos0 GWState.init hf).1 o hmem

/-- C3 witness: device 1 (a follower) still observes the first round's
offset sample (0, 0) on the second round of a concrete two-round run. -/
theorem C3_offset_sticky_witness :
    (group_walk 1 (RVal.fin 1) c1_in2
      (group_walk 1 (RVal.fin 1) c1_in1 (RVal.fin 0, RVal.fin 0)
        GWState.init).pos
      (group_walk 1 (RVal.fin 1) c1_in1 (RVal.fin 0, RVal.fin 0)
        GWState.init).state).offset = some c1_in1.sample :=
  C3_offset_sticky 1 (RVal.fin 1) (RVal.fin 0, RVal.fin 0) c1_in1 [c1_in2]
    (by decide) _
    (by simp only [group_walk_run]
        exact List.mem_cons_of_mem _ (List.mem_cons_self _ _))

/-- C6: a follower's first active round sets its position exactly to the
oracle's closest walkable point to `leader_pos + personalOffset` without
invoking `reach_on_streets` (no velocity cap applies); every later round
instead invokes `reach_on_streets` toward `leader_pos + personalOffset`. -/
theorem C6_follower_rounds (uid : ℕ) (max_v : RVal) (inp : RoundIn)
    (pos : Vec2) (st : GWState) (hf : ¬ uid = leader_of uid) :
    (st.first_slot.getD true = true →
      (group_walk uid max_v inp pos st).pos
        = inp.net.closest_space
            (inp.leader_pos + st.const_slot.getD inp.sample) ∧
      (group_walk uid max_v inp pos st).moved_toward = none ∧
      (group_walk uid max_v inp pos st).reach_dist = none) ∧
    (st.first_slot.getD true = false →
      (group_walk uid max_v inp pos st).moved_toward
        = some (inp.leader_pos + st.const_slot.getD inp.sample) ∧
      (group_walk uid max_v inp pos st).pos
        = (reach_on_streets inp.net inp.prim pos
            (inp.leader_pos + st.const_slot.getD inp.sample) max_v
            group_walk_period).1) := by
  unfold group_walk
  rw [if_neg hf]
  constructor
  · intro h
    have h2 : (old_put st.first_slot true false).1 = true := h
    rw [if_pos h2]
    refine ⟨?_, rfl, rfl⟩
    rw [vec2_add_comm inp.leader_pos (st.const_slot.getD inp.sample)]
    rfl
  · intro h
    have h2 : ¬ ((old_put st.first_slot true false).1 = true) := by
      have hx : (old_put st.first_slot true false).1 = false := h
      rw [hx]
      exact Bool.false_ne_true
    rw [if_neg h2]
    constructor
    · rw [vec2_add_comm inp.leader_pos (st.const_slot.getD inp.sample)]
      rfl
    · rw [vec2_add_comm inp.leader_pos (st.const_slot.getD inp.sample)]
      rfl

/-- C6 witness: follower 1 on its first round with leader at (3, 4) and
fresh offset sample (0, 0) teleports to the closest walkable point of the
leader position plus offset. -/
theorem C6_follower_rounds_witness :
    (GWState.init.first_slot.getD true = true →
      (group_walk 1 (RVal.fin 1) c6_in (RVal.fin 0, RVal.fin 0)
          GWState.init).pos
        = c6_in.net.closest_space
            (c6_in.leader_pos + GWState.init.const_slot.getD c6_in.sample) ∧
      (group_walk 1 (RVal.fin 1) c6_in (RVal.fin 0, RVal.fin 0)
          GWState.init).moved_toward = none ∧
      (group_walk 1 (RVal.fin 1) c6_in (RVal.fin 0, RVal.fin 0)
          GWState.init).reach_dist = none) ∧
    (GWState.init.first_slot.getD true = false →
      (group_walk 1 (RVal.fin 1) c6_in (RVal.fin 0, RVal.fin 0)
          GWState.init).moved_toward
        = some (c6_in.leader_pos + GWState.init.const_slot.getD c6_in.sample) ∧
      (group_walk 1 (RVal.fin 1) c6_in (RVal.fin 0, RVal.fin 0)
          GWState.init).pos
        = (reach_on_streets c6_in.net c6_in.prim (RVal.fin 0, RVal.fin 0)
            (c6_in.leader_pos + GWState.init.const_slot.getD c6_in.sample)
            (RVal.fin 1) group_walk_period).1) :=
  C6_follower_rounds 1 (RVal.fin 1) c6_in (RVal.fin 0, RVal.fin 0)
    GWState.init (by decide)

/-- C9: a `spawn_group` configuration with group id `g` and size `s`
(`0 < s < max_group_size`) spawns exactly the identifiers
`max_group_size*g, …, max_group_size*g + s - 1`; every spawned device's
derived leader identifier is `max_group_size * g`, which is itself among
the spawned identifiers. -/
theorem C9_spawn_group (g s : ℕ) (h1 : 0 < s) (h2 : s < max_group_size) :
    spawn_group_uids g s
      = (List.range s).map (fun i => ((max_group_size * g + i : ℕ) : ℤ)) ∧
    (∀ u ∈ spawn_group_uids g s,
      leader_of u.toNat = max_group_size * g) ∧
    ((max_group_size * g : ℕ) : ℤ) ∈ spawn_group_uids g s := by
  have hmap : spawn_group_uids g s
      = (List.range s).map (fun i => ((max_group_size * g + i : ℕ) : ℤ)) := by
    unfold spawn_group_uids arithmetic_sequence acc_constant
    apply List.map_congr_left
    intro i _
    push_cast
    ring
  refine ⟨hmap, ?_, ?_⟩
  · intro u hu
    rw [hmap] at hu
    rcases List.mem_map.mp hu with ⟨i, hi, rfl⟩
    have hilt : i < s := List.mem_range.mp hi
    rw [Int.toNat_natCast]
    unfold leader_of
    unfold max_group_size at *
    omega
  · rw [hmap]
    refine List.mem_map.mpr ⟨0, List.mem_range.mpr h1, ?_⟩
    norm_num

/-- C9 witness: group id 2, size 51 — the spawned identifiers are
200, …, 250, each with derived leader 200, and 200 is spawned. -/
theorem C9_spawn_group_witness :
    (0 < 51 ∧ 51 < max_group_size) ∧
    (spawn_group_uids 2 51
      = (List.range 51).map (fun i => ((max_group_size * 2 + i : ℕ) : ℤ)) ∧
    (∀ u ∈ spawn_group_uids 2 51,
      leader_of u.toNat = max_group_size * 2) ∧
    ((max_group_size * 2 : ℕ) : ℤ) ∈ spawn_group_uids 2 51) :=
  ⟨⟨by decide, by decide⟩, C9_spawn_group 2 51 (by decide) (by decide)⟩

end FcppMovement
